import Mathlib

/-!
Verification of the popsim demographic simulation engine against its
natural-language specification.

The repository snapshot contains only the demo driver (`src/demo.py`) and the
packaging script (`src/setup.py`); the engine itself (`src/popsim/popsim.pyx`
and `src/popsim/population.cpp` referenced by `setup.py`) is absent.  The
definitions below are therefore a shallow embedding modelled from the spec:
each component follows the corresponding section of the specification
(§3 data model, §4 component design, §6 external interfaces).  Probabilities
are rationals, the uniform random draws of the single owned pseudo-random
generator are modelled by a concrete 64-bit linear congruential generator
producing rationals in [0,1), and the yearly pipeline runs
Mortality → Mating → Reproduction → Metrics in the specified order.
-/

set_option maxHeartbeats 1000000
set_option maxRecDepth 40000

namespace Popsim

/-- Modelled from the spec (§3 Genome): a genome is a fixed-length bit
sequence; the engine source is absent from the snapshot, so the
representation follows the spec's words.  Genomes of founders and offspring
are built with length 128. -/
abbrev Genome := List Bool

/-- Modelled from the spec (§4.1): `distance(a, b)` returns the number of
differing bits between two genomes. -/
def distance (a b : Genome) : Nat :=
  ((List.zipWith xor a b).filter (fun x => x)).length

/-- State of the Population's single owned pseudo-random generator.  The
engine source is absent, so a concrete 64-bit LCG stands in for its
deterministic generator; every claim about randomness only uses that the
stream is a deterministic function of the seed. -/
abbrev RngState := Nat

/-- One step of the 64-bit linear congruential generator. -/
def lcgNext (s : RngState) : RngState :=
  (6364136223846793005 * s + 1442695040888963407) % (2 ^ 64)

/-- Draw one uniform rational value in [0,1) (31 significant bits), returning
the value and the advanced generator state. -/
def drawUnit (s : RngState) : ℚ × RngState :=
  let s' := lcgNext s
  (mkRat (s' / 2 ^ 33 % 2 ^ 31 : Nat) (2 ^ 31), s')

/-- Draw one uniform random bit. -/
def drawBool (s : RngState) : Bool × RngState :=
  let s' := lcgNext s
  (s' / 2 ^ 33 % 2 == 1, s')

/-- Draw a uniform natural number in [0, n]. -/
def drawNatLe (s : RngState) (n : Nat) : Nat × RngState :=
  let s' := lcgNext s
  (s' / 2 ^ 33 % (n + 1), s')

/-- The low `n` bits of a natural number, least significant first. -/
def natBits (x : Nat) (n : Nat) : List Bool :=
  (List.range n).map (fun i => x.testBit i)

/-- Draw a uniform random 128-bit genome, taking 64 bits from each of two
consecutive generator outputs. -/
def drawGenome (r : RngState) : Genome × RngState :=
  let s1 := lcgNext r
  let s2 := lcgNext s1
  (natBits s1 64 ++ natBits s2 64, s2)

/-- Modelled from the spec (§3, design note on sex/role): a closed two-value
enumeration. -/
inductive Sex
  | male
  | female
deriving DecidableEq, Repr

/-- Modelled from the spec (§3 Person): identity, age, sex, vital status,
genome, marital links (identifiers of spouses), and lineage (parent
identifiers). -/
structure Person where
  pid : Nat
  age : Nat
  sex : Sex
  alive : Bool
  genome : Genome
  spouses : List Nat
  parents : Option (Nat × Nat)
deriving DecidableEq, Repr

/-- Modelled from the spec (§6 External interfaces): the Environment value
object with the fields named there. -/
structure Environment where
  resources : ℚ
  incest_threshold : Nat
  polygamy : Bool
  marriage_probability : ℚ
  conceiving_probability : ℚ
  age_of_consent : Nat
  dying_curve : List ℚ
deriving DecidableEq

/-- Modelled from the spec (§7 Error taxonomy). -/
inductive SimError
  | ConfigurationError
  | NotConfiguredError
deriving DecidableEq, Repr

/-- Modelled from the spec (§4.2 Environment validation): resource budget
non-negative, probabilities in [0,1], incest threshold in [0,128], mortality
curve non-empty with a non-negative probability for every listed age. -/
def Environment.valid (e : Environment) : Bool :=
  decide (0 ≤ e.resources) &&
  decide (0 ≤ e.marriage_probability) && decide (e.marriage_probability ≤ 1) &&
  decide (0 ≤ e.conceiving_probability) && decide (e.conceiving_probability ≤ 1) &&
  decide (e.incest_threshold ≤ 128) &&
  !e.dying_curve.isEmpty &&
  e.dying_curve.all (fun p => decide (0 ≤ p) && decide (p ≤ 1))

/-- Modelled from the spec (§3 Population, §6): the Population owns the
roster, the generator state, the Environment reference, the running resource
balance, and the four per-year history series. -/
structure PopState where
  roster : List Person
  rng : RngState
  env : Option Environment
  nextId : Nat
  resources : ℚ
  population_history : List Nat
  mean_age_history : List ℚ
  births_history : List Nat
  deaths_history : List Nat

/-- Modelled from the spec (§6): `Population(seed)` constructs an empty
population with the generator seeded once at construction and no
Environment bound. -/
def Population (seed : Nat) : PopState :=
  { roster := []
    rng := seed
    env := none
    nextId := 0
    resources := 0
    population_history := []
    mean_age_history := []
    births_history := []
    deaths_history := [] }

/-- Modelled from the spec (§6): `set_environment(env)` binds the
configuration; the running resource balance starts at the configured budget. -/
def set_environment (st : PopState) (e : Environment) : PopState :=
  { st with env := some e, resources := e.resources }

/-- Create one founder: age uniform in [0, max_start_age], sex and 128-bit
genome uniform at random, alive, unmarried, no recorded lineage. -/
def mkFounder (r : RngState) (nid : Nat) (maxAge : Nat) : Person × RngState :=
  let (a, r1) := drawNatLe r maxAge
  let (sb, r2) := drawBool r1
  let (g, r3) := drawGenome r2
  (⟨nid, a, if sb then Sex.male else Sex.female, true, g, [], none⟩, r3)

/-- Create `n` founders with consecutive fresh identifiers starting at `nid`,
threading the generator. -/
def initFounders (maxAge : Nat) : Nat → RngState → Nat → List Person × RngState × Nat
  | 0, r, nid => ([], r, nid)
  | n + 1, r, nid =>
    let (p, r1) := mkFounder r nid maxAge
    let (ps, r2, nid') := initFounders maxAge n r1 (nid + 1)
    (p :: ps, r2, nid')

/-- Modelled from the spec (§6): `initialize_random(count, max_start_age)`
populates the roster with `count` founders. -/
def initialize_random (st : PopState) (count maxAge : Nat) : PopState :=
  let (ps, r', nid') := initFounders maxAge count st.rng st.nextId
  { st with roster := st.roster ++ ps, rng := r', nextId := nid' }

/-- Modelled from the spec (§4.3, §4.2): the death probability for a person
of age `a` is the curve entry at index `a`, clamped to the table's maximum
index; ages beyond the table use the last entry, never extrapolation. -/
def deathProb (curve : List ℚ) (age : Nat) : ℚ :=
  curve.getD (min age (curve.length - 1)) 0

/-- Modelled from the spec (§4.3 Mortality Engine): an alive person draws one
uniform value; the person dies this year if the draw is below the configured
probability at the person's current age (age frozen at death), and otherwise
ages by one.  A deceased person is skipped and consumes no draw.  The third
component counts this person's contribution to the year's deaths. -/
def mortalityPerson (e : Environment) (p : Person) (r : RngState) :
    Person × RngState × Nat :=
  if p.alive then
    let (u, r') := drawUnit r
    if u < deathProb e.dying_curve p.age then
      ({ p with alive := false }, r', 1)
    else
      ({ p with age := p.age + 1 }, r', 0)
  else
    (p, r, 0)

/-- Modelled from the spec (§4.3): run the mortality decision over the roster
in order, each alive person consuming exactly one draw, counting deaths. -/
def mortalityYear (e : Environment) : List Person → RngState →
    List Person × RngState × Nat
  | [], r => ([], r, 0)
  | p :: ps, r =>
    let (p', r1, d) := mortalityPerson e p r
    let (ps', r2, ds) := mortalityYear e ps r1
    (p' :: ps', r2, d + ds)

/-- Modelled from the spec (§4.4, glossary): eligible for marriage means
alive, at or above the configured minimum marrying age, with marital
capacity (unmarried, or any capacity when polygamy is enabled), and not yet
a participant in a marriage attempt this year. -/
def eligible (e : Environment) (attempted : List Nat) (p : Person) : Bool :=
  p.alive && decide (e.age_of_consent ≤ p.age) &&
  (p.spouses.isEmpty || e.polygamy) && !(attempted.contains p.pid)

/-- Whether `p` is a recorded parent of `q` (direct ancestry link). -/
def isParentOf (p q : Person) : Bool :=
  match q.parents with
  | some (a, b) => a == p.pid || b == p.pid
  | none => false

/-- Direct ancestry relation in either direction. -/
def directKin (p q : Person) : Bool :=
  isParentOf p q || isParentOf q p

/-- Modelled from the spec (§4.4, §9 open question on the incest threshold
direction): the spec leaves the comparison direction to the implementer.
Documented choice here: `incest_threshold` is the minimum allowed genetic
distance, so a pair is admissible exactly when
`incest_threshold ≤ distance`. -/
def incestOK (e : Environment) (p q : Person) : Bool :=
  decide (e.incest_threshold ≤ distance p.genome q.genome)

/-- Modelled from the spec (§4.4): a valid candidate partner for `p` is a
different person, eligible, of the opposite sex category, not related by a
direct ancestry link, and passing the incest constraint. -/
def candidateOK (e : Environment) (attempted : List Nat) (p q : Person) : Bool :=
  (p.pid != q.pid) && eligible e attempted q && (q.sex != p.sex) &&
  !directKin p q && incestOK e p q

/-- First valid candidate partner for `p` in roster order, if any. -/
def findCandidate (e : Environment) (attempted : List Nat) (p : Person) :
    List Person → Option Person
  | [] => none
  | q :: qs =>
    if candidateOK e attempted p q then some q
    else findCandidate e attempted p qs

/-- How one person changes when the marriage of identifiers `a` and `b` is
committed: each of the two lists the other as a spouse; no other field
changes. -/
def commitFun (a b : Nat) (p : Person) : Person :=
  if p.pid == a then { p with spouses := b :: p.spouses }
  else if p.pid == b then { p with spouses := a :: p.spouses }
  else p

/-- Commit the mutual marriage link between the persons with identifiers `a`
and `b`. -/
def commitMarriage (roster : List Person) (a b : Nat) : List Person :=
  roster.map (commitFun a b)

/-- Modelled from the spec (§4.4 Mating Matcher): consider persons in stable
roster order (ascending identifier); each eligible person with a valid
candidate makes one marriage attempt — a single draw against the marriage
probability — and on success the mutual link is committed for both.  Both
participants of an attempt are excluded from further attempts this year. -/
def matingGo (e : Environment) : List Nat → List Person → List Nat → RngState →
    List Person × RngState
  | [], roster, _, r => (roster, r)
  | i :: is, roster, attempted, r =>
    match roster[i]? with
    | none => matingGo e is roster attempted r
    | some p =>
      if eligible e attempted p then
        match findCandidate e attempted p roster with
        | none => matingGo e is roster attempted r
        | some q =>
          let (u, r') := drawUnit r
          let roster' :=
            if u < e.marriage_probability then commitMarriage roster p.pid q.pid
            else roster
          matingGo e is roster' (p.pid :: q.pid :: attempted) r'
      else matingGo e is roster attempted r

/-- Modelled from the spec (§4.4): one mating pass over the whole roster. -/
def matingYear (e : Environment) (roster : List Person) (r : RngState) :
    List Person × RngState :=
  matingGo e (List.range roster.length) roster [] r

/-- Look up a person by identifier. -/
def lookup (roster : List Person) (i : Nat) : Option Person :=
  roster.find? (fun p => p.pid == i)

/-- Modelled from the spec (§4.5): the married pairs evaluated for
reproduction, exactly one pairing per couple per year: each alive male is
paired with each of his alive female spouses. -/
def marriedPairs (roster : List Person) : List (Person × Person) :=
  roster.flatMap fun p =>
    if p.sex == Sex.male && p.alive then
      p.spouses.filterMap fun s =>
        match lookup roster s with
        | some q => if q.alive && q.sex == Sex.female then some (p, q) else none
        | none => none
    else []

/-- Modelled from the spec (§4.1): default per-bit mutation probability used
by `combine`; the spec leaves the value to the implementer
(small configured/default mutation probability). -/
def mutation_rate : ℚ := 1 / 128

/-- Modelled from the spec (§4.1): `combine(a, b)` builds a child genome by
choosing, per bit position, one parent's bit with equal probability and then
flipping it with the mutation probability.  Output length equals input
length for equal-length parents. -/
def combine : Genome → Genome → RngState → Genome × RngState
  | [], _, r => ([], r)
  | _ :: _, [], r => ([], r)
  | a :: as, b :: bs, r =>
    let (c, r1) := drawBool r
    let bit0 := if c then a else b
    let (u, r2) := drawUnit r1
    let bit := if u < mutation_rate then !bit0 else bit0
    let (rest, r3) := combine as bs r2
    (bit :: rest, r3)

/-- Modelled from the spec (§4.5 Reproduction & Resource Model, §9 open
question on the resource rule): for each married pair, draw one value
against the conceiving probability; on conception, a birth happens only
while the running resource balance is above the zero floor.  Documented
resource rule chosen here: each birth consumes one unit, the balance is
clamped at zero, and there is no regeneration.  A new person has age 0,
random sex, genome combined from both parents, lineage set to the parents,
alive and unmarried.  Returns the optional newborn, the generator state,
the remaining resources and the next fresh identifier. -/
def reproducePair (e : Environment) (p q : Person) (r : RngState) (res : ℚ)
    (nid : Nat) : Option Person × RngState × ℚ × Nat :=
  let (u, r1) := drawUnit r
  if u < e.conceiving_probability && decide (0 < res) then
    let (sb, r2) := drawBool r1
    let (g, r3) := combine p.genome q.genome r2
    (some ⟨nid, 0, if sb then Sex.male else Sex.female, true, g, [],
       some (p.pid, q.pid)⟩,
     r3, max 0 (res - 1), nid + 1)
  else
    (none, r1, res, nid)

/-- Run the reproduction decision over all married pairs in order, threading
the generator, the resource balance and the identifier counter, collecting
newborns and counting births. -/
def reproduceGo (e : Environment) :
    List (Person × Person) → RngState → ℚ → Nat →
    List Person × RngState × ℚ × Nat × Nat
  | [], r, res, nid => ([], r, res, nid, 0)
  | pq :: rest, r, res, nid =>
    let t := reproducePair e pq.1 pq.2 r res nid
    let u := reproduceGo e rest t.2.1 t.2.2.1 t.2.2.2
    (t.1.toList ++ u.1, u.2.1, u.2.2.1, u.2.2.2.1, u.2.2.2.2 + t.1.toList.length)

/-- Number of living persons in a roster. -/
def aliveCount (roster : List Person) : Nat :=
  (roster.filter (fun p => p.alive)).length

/-- Modelled from the spec (§4.7): mean age over living persons, 0 by
convention when none are alive. -/
def meanAge (roster : List Person) : ℚ :=
  let living := roster.filter (fun p => p.alive)
  if living.length = 0 then 0
  else mkRat ((living.map (fun p => p.age)).sum : Nat) living.length

/-- Modelled from the spec (§4.6, §4.7): one simulated year — Mortality,
then Mating, then Reproduction, then one metrics entry appended to each of
the four series, computed over the entire roster. -/
def stepYear (e : Environment) (st : PopState) : PopState :=
  let m := mortalityYear e st.roster st.rng
  let mt := matingYear e m.1 m.2.1
  let rep := reproduceGo e (marriedPairs mt.1) mt.2 st.resources st.nextId
  let roster3 := mt.1 ++ rep.1
  { st with
    roster := roster3
    rng := rep.2.1
    resources := rep.2.2.1
    nextId := rep.2.2.2.1
    population_history := st.population_history ++ [aliveCount roster3]
    mean_age_history := st.mean_age_history ++ [meanAge roster3]
    births_history := st.births_history ++ [rep.2.2.2.2]
    deaths_history := st.deaths_history ++ [m.2.2] }

/-- Run `n` simulated years in sequence. -/
def stepYears (e : Environment) : Nat → PopState → PopState
  | 0, st => st
  | n + 1, st => stepYears e n (stepYear e st)

/-- Modelled from the spec (§6, §4.6): `step(years)` fails with
`ConfigurationError` on negative input, fails with `NotConfiguredError`
when no Environment has been bound, and otherwise advances the simulation
by `years` years. -/
def step (st : PopState) (years : Int) : Except SimError PopState :=
  if years < 0 then Except.error SimError.ConfigurationError
  else
    match st.env with
    | none => Except.error SimError.NotConfiguredError
    | some e => Except.ok (stepYears e years.toNat st)

/-- Modelled from the spec (§6): the current full roster, deceased included. -/
def persons (st : PopState) : List Person :=
  st.roster

/-- Population count series getter, oldest first. -/
def population_history (st : PopState) : List Nat :=
  st.population_history

/-- Mean age series getter, oldest first. -/
def mean_age_history (st : PopState) : List ℚ :=
  st.mean_age_history

/-- Births series getter, oldest first. -/
def births_history (st : PopState) : List Nat :=
  st.births_history

/-- Deaths series getter, oldest first. -/
def deaths_history (st : PopState) : List Nat :=
  st.deaths_history

/-- The full programmatic run used by the demo driver: construct with a
seed, bind the environment, initialize founders, then step. -/
def runSim (seed : Nat) (e : Environment) (count maxAge years : Nat) :
    PopState :=
  stepYears e years (initialize_random (set_environment (Population seed) e) count maxAge)

/-- States reachable through the programmatic API with a valid bound
environment: construct, bind, initialize, then any number of simulated
years. -/
inductive Reachable (e : Environment) : PopState → Prop
  | init (seed count maxAge : Nat) (hv : e.valid = true) :
      Reachable e (initialize_random (set_environment (Population seed) e) count maxAge)
  | succ (st : PopState) (h : Reachable e st) : Reachable e (stepYear e st)

/-- Mortality curve of the spec's first end-to-end example: all-zero except
age 127 = 1. -/
def exCurveA : List ℚ := List.replicate 127 0 ++ [1]

/-- Mortality curve of the spec's second end-to-end example: additionally
entry 0 = 1. -/
def exCurveB : List ℚ := 1 :: (List.replicate 126 0 ++ [1])

/-- Environment of the spec's first end-to-end example:
`marriage_probability = 0` and the all-zero-except-127 curve; the remaining
fields take the demo driver's values. -/
def exEnvA : Environment :=
  ⟨12500, 50, false, 0, 1, 18, exCurveA⟩

/-- Environment of the spec's second end-to-end example. -/
def exEnvB : Environment :=
  ⟨12500, 50, false, 0, 1, 18, exCurveB⟩

/-- First end-to-end example run: 10 founders, all of age 0, one year. -/
def exRunA : PopState :=
  stepYears exEnvA 1 (initialize_random (set_environment (Population 12345) exEnvA) 10 0)

/-- Second end-to-end example run. -/
def exRunB : PopState :=
  stepYears exEnvB 1 (initialize_random (set_environment (Population 12345) exEnvB) 10 0)

/-- Small valid environment used to instantiate proved properties on
concrete inputs. -/
def wEnv : Environment :=
  ⟨100, 0, false, mkRat 1 2, mkRat 1 2, 18, [mkRat 1 100, mkRat 1 2]⟩

/-- Concrete population with an environment bound and an empty roster. -/
def wState : PopState :=
  initialize_random (set_environment (Population 7) wEnv) 0 0

/-- Concrete population with no environment bound. -/
def wStateNoEnv : PopState :=
  Population 7

/-- Valid environment whose resource budget is already exhausted. -/
def wEnv0 : Environment :=
  ⟨0, 0, false, mkRat 1 2, mkRat 1 2, 18, [mkRat 1 100, mkRat 1 2]⟩

/-- Concrete population bound to the exhausted-budget environment. -/
def wState0 : PopState :=
  initialize_random (set_environment (Population 3) wEnv0) 0 0

/-- Concrete population with one founder. -/
def wStateP : PopState :=
  initialize_random (set_environment (Population 7) wEnv) 1 0

/-- The founder of `wStateP`. -/
def wPerson : Person :=
  (persons wStateP).getD 0 ⟨0, 0, Sex.male, true, [], [], none⟩

/-- The founder of `wStateP` after one simulated year. -/
def wPersonA : Person :=
  (persons (stepYear wEnv wStateP)).getD 0 ⟨0, 0, Sex.male, true, [], [], none⟩

/-- The founder of `wStateP` after three simulated years. -/
def wPersonC : Person :=
  (persons (stepYears wEnv 3 wStateP)).getD 0 ⟨0, 0, Sex.male, true, [], [], none⟩

/-- Valid environment under which everyone is eligible to marry at once:
no deaths, certain marriage, no conception. -/
def w5Env : Environment :=
  ⟨100, 0, false, 1, 0, 0, [0]⟩

/-- Concrete two-founder population bound to `w5Env`; with seed 0 the two
founders have opposite sexes. -/
def w5Pre : PopState :=
  initialize_random (set_environment (Population 0) w5Env) 2 0

/-- The state of `w5Pre` after one simulated year, in which the two
founders have married each other. -/
def w5State : PopState :=
  stepYear w5Env w5Pre

/-- First spouse of the concrete married pair. -/
def w5A : Person :=
  (persons w5State).getD 0 ⟨0, 0, Sex.male, true, [], [], none⟩

/-- Second spouse of the concrete married pair. -/
def w5B : Person :=
  (persons w5State).getD 1 ⟨0, 0, Sex.male, true, [], [], none⟩

/-- The roster of `w5Pre` after its mortality stage. -/
def w6M : List Person :=
  (mortalityYear w5Env w5Pre.roster w5Pre.rng).1

/-- The roster of `w5Pre` after its mortality and mating stages. -/
def w6MT : List Person :=
  (matingYear w5Env (mortalityYear w5Env w5Pre.roster w5Pre.rng).1
    (mortalityYear w5Env w5Pre.roster w5Pre.rng).2.1).1

/-- First roster entry after the mortality stage of `w5Pre`'s year. -/
def w6X : Person :=
  w6M.getD 0 ⟨0, 0, Sex.male, true, [], [], none⟩

/-- First roster entry after the mating stage of `w5Pre`'s year. -/
def w6Y : Person :=
  w6MT.getD 0 ⟨0, 0, Sex.male, true, [], [], none⟩

/-- The fields of a person that the mortality stage never changes:
everything except age and vital status. -/
def idCore (p : Person) :
    Nat × Genome × List Nat × Option (Nat × Nat) × Sex :=
  (p.pid, p.genome, p.spouses, p.parents, p.sex)

/-- The fields of a person that the mating stage never changes: everything
except the spouse list. -/
def matCore (p : Person) :
    Nat × Nat × Sex × Bool × Genome × Option (Nat × Nat) :=
  (p.pid, p.age, p.sex, p.alive, p.genome, p.parents)

/-- Marriage mutuality: every spouse link is reciprocated. -/
def Mutual (roster : List Person) : Prop :=
  ∀ p ∈ roster, ∀ s ∈ p.spouses, ∃ q ∈ roster, q.pid = s ∧ p.pid ∈ q.spouses

/-- Every married pair in the roster satisfies the configured incest
relation (the documented direction: genetic distance at least the
threshold). -/
def IncestInv (e : Environment) (roster : List Person) : Prop :=
  ∀ p ∈ roster, ∀ q ∈ roster, q.pid ∈ p.spouses →
    e.incest_threshold ≤ distance p.genome q.genome

/-- Every spouse link present in `r₁` but absent at the same roster
position in `r₀` joins a person that was alive in `r₀` to a person of `r₀`
that was alive there. -/
def NewLinks (r₀ r₁ : List Person) : Prop :=
  ∀ (i : Nat) (x x' : Person), r₀[i]? = some x → r₁[i]? = some x' →
    ∀ s ∈ x'.spouses, s ∉ x.spouses →
      x.alive = true ∧ ∃ q ∈ r₀, q.pid = s ∧ q.alive = true

/-- The structural invariant on a roster relative to the identifier
counter: identifiers are unique and below the counter, spouse links only
mention identifiers below the counter, and marriages are mutual and satisfy
the incest relation. -/
def GoodRoster (e : Environment) (roster : List Person) (nid : Nat) : Prop :=
  (roster.map Person.pid).Nodup ∧
  (∀ p ∈ roster, p.pid < nid) ∧
  (∀ p ∈ roster, ∀ s ∈ p.spouses, s < nid) ∧
  IncestInv e roster ∧
  Mutual roster

/-- The structural invariant maintained by every reachable population
state: a good roster, and a resource balance at the zero floor or above. -/
def GoodState (e : Environment) (st : PopState) : Prop :=
  GoodRoster e st.roster st.nextId ∧ 0 ≤ st.resources

/-!
Theorems.
-/

/-- Claim C1: two Population instances constructed with the same integer
seed, bound to the same Environment, initialized with the same
`initialize_random` call, and stepped the same number of years produce
identical rosters and identical four history series.  In the embedding a
run is a function of the seed, the environment, the initialization
arguments and the year count alone, so equal inputs give equal outputs. -/
theorem run_deterministic (seed₁ seed₂ count maxAge years : Nat)
    (e : Environment) (h : seed₁ = seed₂) :
    persons (runSim seed₁ e count maxAge years) =
      persons (runSim seed₂ e count maxAge years) ∧
    population_history (runSim seed₁ e count maxAge years) =
      population_history (runSim seed₂ e count maxAge years) ∧
    mean_age_history (runSim seed₁ e count maxAge years) =
      mean_age_history (runSim seed₂ e count maxAge years) ∧
    births_history (runSim seed₁ e count maxAge years) =
      births_history (runSim seed₂ e count maxAge years) ∧
    deaths_history (runSim seed₁ e count maxAge years) =
      deaths_history (runSim seed₂ e count maxAge years) := by
  subst h
  exact ⟨rfl, rfl, rfl, rfl, rfl⟩

/-- Witness for C1 at concrete inputs. -/
theorem run_deterministic_witness :
    persons (runSim 5 wEnv 3 2 1) = persons (runSim 5 wEnv 3 2 1) ∧
    population_history (runSim 5 wEnv 3 2 1) =
      population_history (runSim 5 wEnv 3 2 1) ∧
    mean_age_history (runSim 5 wEnv 3 2 1) =
      mean_age_history (runSim 5 wEnv 3 2 1) ∧
    births_history (runSim 5 wEnv 3 2 1) =
      births_history (runSim 5 wEnv 3 2 1) ∧
    deaths_history (runSim 5 wEnv 3 2 1) =
      deaths_history (runSim 5 wEnv 3 2 1) :=
  run_deterministic 5 5 3 2 1 wEnv rfl

/-- Claim C2: `step` fails with `ConfigurationError` on a negative year
count, fails with `NotConfiguredError` when no Environment has been bound
(for a non-negative count), and advancing by zero years succeeds leaving
the roster and all four history series unchanged. -/
theorem step_error_handling (st : PopState) (years : Int) :
    (years < 0 → step st years = Except.error SimError.ConfigurationError) ∧
    (st.env = none → 0 ≤ years →
      step st years = Except.error SimError.NotConfiguredError) ∧
    (∀ e, st.env = some e →
      ∃ st', step st 0 = Except.ok st' ∧
        persons st' = persons st ∧
        population_history st' = population_history st ∧
        mean_age_history st' = mean_age_history st ∧
        births_history st' = births_history st ∧
        deaths_history st' = deaths_history st) := by
  refine ⟨fun h => ?_, fun henv h => ?_, fun e henv => ?_⟩
  · simp [step, h]
  · simp [step, henv, not_lt.mpr h]
  · refine ⟨st, ?_, rfl, rfl, rfl, rfl, rfl⟩
    simp [step, henv]
    rfl

/-- Witness for C2 at concrete inputs. -/
theorem step_error_handling_witness :
    step wState (-1) = Except.error SimError.ConfigurationError ∧
    step wStateNoEnv 2 = Except.error SimError.NotConfiguredError ∧
    (step wState 0).isOk = true := by
  refine ⟨(step_error_handling wState (-1)).1 (by decide),
    (step_error_handling wStateNoEnv 2).2.1 rfl (by decide), ?_⟩
  obtain ⟨st', hok, _⟩ := (step_error_handling wState 0).2.2 wEnv rfl
  rw [hok]
  rfl

/-- Claim C3: the two end-to-end examples.  With the all-zero-except-127
curve, `marriage_probability = 0` and 10 founders of age 0, one year gives
histories [10], [0], [0], [1]; with entry 0 of the curve set to 1, one year
gives population history [0] and deaths history [10]. -/
theorem end_to_end_examples :
    (population_history exRunA = [10] ∧ deaths_history exRunA = [0] ∧
     births_history exRunA = [0] ∧ mean_age_history exRunA = [1]) ∧
    (population_history exRunB = [0] ∧ deaths_history exRunB = [10]) := by
  refine ⟨⟨?_, ?_, ?_, ?_⟩, ?_, ?_⟩ <;> decide

/-- Helper: the entry at the maximum index of a non-empty list is its last
entry. -/
theorem getD_pred_length (l : List ℚ) :
    l ≠ [] → l.getD (l.length - 1) 0 = l.getLastD 0 := by
  induction l with
  | nil => intro h; simp at h
  | cons x xs ih =>
    intro _
    cases xs with
    | nil => simp
    | cons y ys =>
      have h := ih (by simp)
      simpa [List.getD] using h

/-- Claim C4: the mortality lookup returns exactly the configured curve
entry at the person's age for every age inside the table's domain (no
interpolation), and returns the table's last entry for every age at or
beyond the table's maximum index (clamped, not extrapolated). -/
theorem deathProb_clamped (curve : List ℚ) (a : Nat) :
    (a < curve.length → deathProb curve a = curve.getD a 0) ∧
    (curve ≠ [] → curve.length - 1 ≤ a →
      deathProb curve a = curve.getLastD 0) := by
  constructor
  · intro h
    have : min a (curve.length - 1) = a :=
      Nat.min_eq_left (Nat.le_sub_one_of_lt h)
    simp [deathProb, this]
  · intro hne h
    have hmin : min a (curve.length - 1) = curve.length - 1 :=
      Nat.min_eq_right h
    rw [deathProb, hmin]
    exact getD_pred_length curve hne

/-- Witness for C4 on a concrete three-entry curve, one in-domain age and
one clamped age. -/
theorem deathProb_clamped_witness :
    deathProb [mkRat 1 10, mkRat 2 10, mkRat 3 10] 1 = mkRat 2 10 ∧
    deathProb [mkRat 1 10, mkRat 2 10, mkRat 3 10] 9 = mkRat 3 10 :=
  ⟨by
    have h := (deathProb_clamped [mkRat 1 10, mkRat 2 10, mkRat 3 10] 1).1
      (by decide)
    simpa using h,
   by
    have h := (deathProb_clamped [mkRat 1 10, mkRat 2 10, mkRat 3 10] 9).2
      (by decide) (by decide)
    simpa using h⟩

theorem distance_comm (a b : Genome) : distance a b = distance b a := by
  unfold distance
  rw [List.zipWith_comm_of_comm xor Bool.xor_comm]

theorem mortalityYear_cons (e : Environment) (q : Person) (ps : List Person)
    (r : RngState) :
    mortalityYear e (q :: ps) r =
      ((mortalityPerson e q r).1 ::
         (mortalityYear e ps (mortalityPerson e q r).2.1).1,
       (mortalityYear e ps (mortalityPerson e q r).2.1).2.1,
       (mortalityPerson e q r).2.2 +
         (mortalityYear e ps (mortalityPerson e q r).2.1).2.2) := rfl

theorem mortalityPerson_idCore (e : Environment) (p : Person) (r : RngState) :
    idCore (mortalityPerson e p r).1 = idCore p := by
  rw [mortalityPerson]
  by_cases h : p.alive
  · rw [if_pos h]
    split
    split <;> rfl
  · rw [if_neg h]

theorem mortalityPerson_cases (e : Environment) (p : Person) (r : RngState) :
    (p.alive = false ∧ (mortalityPerson e p r).1 = p) ∨
    (p.alive = true ∧
      ((mortalityPerson e p r).1 = { p with alive := false } ∨
       (mortalityPerson e p r).1 = { p with age := p.age + 1 })) := by
  rw [mortalityPerson]
  by_cases h : p.alive
  · rw [if_pos h]
    refine Or.inr ⟨h, ?_⟩
    split
    split
    · exact Or.inl rfl
    · exact Or.inr rfl
  · rw [if_neg h]
    simp at h
    exact Or.inl ⟨h, rfl⟩

theorem mortalityYear_idCore (e : Environment) :
    ∀ (ps : List Person) (r : RngState),
      (mortalityYear e ps r).1.map idCore = ps.map idCore := by
  intro ps
  induction ps with
  | nil => intro r; rfl
  | cons p ps ih =>
    intro r
    rw [mortalityYear_cons]
    show (_ :: _).map idCore = _
    rw [List.map_cons, List.map_cons, ih, mortalityPerson_idCore]

theorem mortalityYear_get (e : Environment) :
    ∀ (ps : List Person) (r : RngState) (i : Nat) (p : Person),
      ps[i]? = some p →
      ∃ p', (mortalityYear e ps r).1[i]? = some p' ∧
        ((p.alive = false ∧ p' = p) ∨
         (p.alive = true ∧
           (p' = { p with alive := false } ∨
            p' = { p with age := p.age + 1 }))) := by
  intro ps
  induction ps with
  | nil => intro r i p h; simp at h
  | cons q ps ih =>
    intro r i p h
    cases i with
    | zero =>
      simp at h
      subst h
      exact ⟨(mortalityPerson e q r).1, by rw [mortalityYear_cons]; simp,
        mortalityPerson_cases e q r⟩
    | succ j =>
      simp at h
      obtain ⟨p', h1, h2⟩ := ih (mortalityPerson e q r).2.1 j p h
      refine ⟨p', ?_, h2⟩
      rw [mortalityYear_cons]
      simpa using h1

end Popsim

namespace Popsim

theorem commitFun_pid (a b : Nat) (p : Person) : (commitFun a b p).pid = p.pid := by
  unfold commitFun
  split
  · rfl
  · split <;> rfl

theorem commitFun_matCore (a b : Nat) (p : Person) :
    matCore (commitFun a b p) = matCore p := by
  unfold commitFun
  split
  · rfl
  · split <;> rfl

theorem commitMarriage_matCore (roster : List Person) (a b : Nat) :
    (commitMarriage roster a b).map matCore = roster.map matCore := by
  unfold commitMarriage
  rw [List.map_map]
  exact List.map_congr_left (fun p _ => commitFun_matCore a b p)

theorem commitMarriage_pidMap (roster : List Person) (a b : Nat) :
    (commitMarriage roster a b).map Person.pid = roster.map Person.pid := by
  unfold commitMarriage
  rw [List.map_map]
  exact List.map_congr_left (fun p _ => commitFun_pid a b p)

theorem commitFun_spouses_superset (a b : Nat) (p : Person) {s : Nat}
    (h : s ∈ p.spouses) : s ∈ (commitFun a b p).spouses := by
  unfold commitFun
  split
  · exact List.mem_cons_of_mem _ h
  · split
    · exact List.mem_cons_of_mem _ h
    · exact h

theorem commitFun_spouses_cases (a b : Nat) (p : Person) (s : Nat)
    (h : s ∈ (commitFun a b p).spouses) :
    s ∈ p.spouses ∨ (p.pid = a ∧ s = b) ∨ (p.pid = b ∧ s = a) := by
  unfold commitFun at h
  by_cases h1 : p.pid = a
  · rw [if_pos (by simpa using h1)] at h
    rcases List.mem_cons.1 h with rfl | hm
    · exact Or.inr (Or.inl ⟨h1, rfl⟩)
    · exact Or.inl hm
  · rw [if_neg (by simpa using h1)] at h
    by_cases h2 : p.pid = b
    · rw [if_pos (by simpa using h2)] at h
      rcases List.mem_cons.1 h with rfl | hm
      · exact Or.inr (Or.inr ⟨h2, rfl⟩)
      · exact Or.inl hm
    · rw [if_neg (by simpa using h2)] at h
      exact Or.inl h

theorem commitFun_of_pid_left (a b : Nat) (p : Person) (h : p.pid = a) :
    (commitFun a b p).spouses = b :: p.spouses := by
  unfold commitFun
  rw [if_pos (by simpa using h)]

theorem commitFun_of_pid_right (a b : Nat) (p : Person) (h : p.pid = b)
    (hab : a ≠ b) :
    (commitFun a b p).spouses = a :: p.spouses := by
  unfold commitFun
  rw [if_neg (by simp [h]; exact fun hh => hab hh.symm), if_pos (by simpa using h)]

end Popsim

namespace Popsim

theorem matCore_eq_iff {p q : Person} :
    matCore p = matCore q ↔
      p.pid = q.pid ∧ p.age = q.age ∧ p.sex = q.sex ∧ p.alive = q.alive ∧
      p.genome = q.genome ∧ p.parents = q.parents := by
  simp [matCore, Prod.ext_iff]

theorem idCore_eq_iff {p q : Person} :
    idCore p = idCore q ↔
      p.pid = q.pid ∧ p.genome = q.genome ∧ p.spouses = q.spouses ∧
      p.parents = q.parents ∧ p.sex = q.sex := by
  simp [idCore, Prod.ext_iff]

theorem pid_injective {roster : List Person}
    (h : (roster.map Person.pid).Nodup) {x y : Person}
    (hx : x ∈ roster) (hy : y ∈ roster) (hpid : x.pid = y.pid) : x = y :=
  List.inj_on_of_nodup_map h hx hy hpid

theorem eligible_alive (e : Environment) (att : List Nat) (p : Person)
    (h : eligible e att p = true) : p.alive = true := by
  simp only [eligible, Bool.and_eq_true] at h
  exact h.1.1.1

theorem candidateOK_facts (e : Environment) (att : List Nat) (p q : Person)
    (h : candidateOK e att p q = true) :
    p.pid ≠ q.pid ∧ q.alive = true ∧
      e.incest_threshold ≤ distance p.genome q.genome := by
  simp only [candidateOK, Bool.and_eq_true] at h
  obtain ⟨⟨⟨⟨h1, h2⟩, h3⟩, h4⟩, h5⟩ := h
  refine ⟨by simpa using h1, eligible_alive e att q h2, ?_⟩
  simpa [incestOK] using h5

theorem findCandidate_mem (e : Environment) (att : List Nat) (p : Person) :
    ∀ (l : List Person) (q : Person), findCandidate e att p l = some q →
      q ∈ l ∧ candidateOK e att p q = true := by
  intro l
  induction l with
  | nil => intro q h; simp [findCandidate] at h
  | cons x xs ih =>
    intro q h
    rw [findCandidate] at h
    by_cases hc : candidateOK e att p x = true
    · rw [if_pos hc] at h
      obtain rfl : x = q := by simpa using h
      exact ⟨List.mem_cons_self x xs, hc⟩
    · rw [if_neg hc] at h
      obtain ⟨hm, hok⟩ := ih q h
      exact ⟨List.mem_cons_of_mem x hm, hok⟩

theorem newLinks_refl (r : List Person) : NewLinks r r := by
  intro i x x' hx hx' s hs hnot
  rw [hx] at hx'
  obtain rfl : x = x' := by simpa using hx'
  exact absurd hs hnot

end Popsim

namespace Popsim

theorem map_getElem_eq {r₀ r₁ : List Person}
    (hcore : r₁.map matCore = r₀.map matCore) {i : Nat} {x x' : Person}
    (hx : r₀[i]? = some x) (hx' : r₁[i]? = some x') :
    matCore x' = matCore x := by
  have h := congrArg (fun l => l[i]?) hcore
  simp only [List.getElem?_map, hx, hx'] at h
  simpa using h

theorem length_eq_of_map_eq {r₀ r₁ : List Person}
    (hcore : r₁.map matCore = r₀.map matCore) : r₁.length = r₀.length := by
  have := congrArg List.length hcore
  simpa using this

theorem newLinks_trans {r₀ r₁ r₂ : List Person}
    (hcore : r₁.map matCore = r₀.map matCore)
    (h01 : NewLinks r₀ r₁) (h12 : NewLinks r₁ r₂) : NewLinks r₀ r₂ := by
  intro i x x'' hx hx'' s hs hnot
  have hi0 : i < r₀.length := by
    have := List.getElem?_eq_some_iff.1 hx
    exact this.1
  have hi1 : i < r₁.length := by rw [length_eq_of_map_eq hcore]; exact hi0
  obtain ⟨x', hx'⟩ : ∃ x', r₁[i]? = some x' :=
    ⟨r₁[i], List.getElem?_eq_getElem hi1⟩
  have hmc : matCore x' = matCore x := map_getElem_eq hcore hx hx'
  obtain ⟨_, _, _, hal, _, _⟩ := matCore_eq_iff.1 hmc
  by_cases hcase : s ∈ x'.spouses
  · exact h01 i x x' hx hx' s hcase hnot
  · obtain ⟨hx'al, q', hq', hqpid, hq'al⟩ := h12 i x' x'' hx' hx'' s hs hcase
    refine ⟨by rw [← hal]; exact hx'al, ?_⟩
    obtain ⟨j, hj⟩ := List.getElem?_of_mem hq'
    have hj0 : j < r₀.length := by
      rw [← length_eq_of_map_eq hcore]
      exact (List.getElem?_eq_some_iff.1 hj).1
    obtain ⟨q₀, hq₀⟩ : ∃ q₀, r₀[j]? = some q₀ :=
      ⟨r₀[j], List.getElem?_eq_getElem hj0⟩
    have hqmc : matCore q' = matCore q₀ := map_getElem_eq hcore hq₀ hj
    obtain ⟨hqpid', _, _, hqal', _, _⟩ := matCore_eq_iff.1 hqmc
    exact ⟨q₀, List.getElem?_mem hq₀, by rw [← hqpid']; exact hqpid,
      by rw [← hqal']; exact hq'al⟩

theorem commitMarriage_mutual (roster : List Person) (a b : Nat) (hab : a ≠ b)
    (ha : ∃ pa ∈ roster, pa.pid = a) (hb : ∃ qb ∈ roster, qb.pid = b)
    (hm : Mutual roster) : Mutual (commitMarriage roster a b) := by
  intro p' hp' s hs
  obtain ⟨p, hp, rfl⟩ := List.mem_map.1 hp'
  rcases commitFun_spouses_cases a b p s hs with hold | ⟨hpa, hsb⟩ | ⟨hpb, hsa⟩
  · obtain ⟨q, hq, hqpid, hqsp⟩ := hm p hp s hold
    exact ⟨commitFun a b q, List.mem_map_of_mem _ hq,
      by rw [commitFun_pid]; exact hqpid,
      by rw [commitFun_pid]; exact commitFun_spouses_superset a b q hqsp⟩
  · obtain ⟨qb, hqb, hqbpid⟩ := hb
    refine ⟨commitFun a b qb, List.mem_map_of_mem _ hqb,
      by rw [commitFun_pid, hqbpid, hsb], ?_⟩
    rw [commitFun_pid, commitFun_of_pid_right a b qb hqbpid hab, hpa]
    exact List.mem_cons_self _ _
  · obtain ⟨pa, hpa', hpapid⟩ := ha
    refine ⟨commitFun a b pa, List.mem_map_of_mem _ hpa',
      by rw [commitFun_pid, hpapid, hsa], ?_⟩
    rw [commitFun_pid, commitFun_of_pid_left a b pa hpapid, hpb]
    exact List.mem_cons_self _ _

theorem commitFun_genome (a b : Nat) (p : Person) :
    (commitFun a b p).genome = p.genome := by
  unfold commitFun
  split
  · rfl
  · split <;> rfl

theorem commitFun_alive (a b : Nat) (p : Person) :
    (commitFun a b p).alive = p.alive := by
  unfold commitFun
  split
  · rfl
  · split <;> rfl

theorem commitMarriage_incest (e : Environment) (roster : List Person)
    (p q : Person) (hnd : (roster.map Person.pid).Nodup)
    (hp : p ∈ roster) (hq : q ∈ roster) (hab : p.pid ≠ q.pid)
    (hdist : e.incest_threshold ≤ distance p.genome q.genome)
    (hinv : IncestInv e roster) :
    IncestInv e (commitMarriage roster p.pid q.pid) := by
  intro x' hx' y' hy' hlink
  obtain ⟨x, hx, rfl⟩ := List.mem_map.1 hx'
  obtain ⟨y, hy, rfl⟩ := List.mem_map.1 hy'
  rw [commitFun_genome, commitFun_genome]
  rw [commitFun_pid] at hlink
  rcases commitFun_spouses_cases _ _ x _ hlink with hold | ⟨hxa, hyb⟩ | ⟨hxb, hya⟩
  · exact hinv x hx y hy hold
  · obtain rfl : x = p := pid_injective hnd hx hp hxa
    obtain rfl : y = q := pid_injective hnd hy hq hyb
    exact hdist
  · obtain rfl : x = q := pid_injective hnd hx hq hxb
    obtain rfl : y = p := pid_injective hnd hy hp hya
    rw [distance_comm]
    exact hdist

theorem commitMarriage_newLinks (roster : List Person) (p q : Person)
    (hnd : (roster.map Person.pid).Nodup) (hp : p ∈ roster) (hq : q ∈ roster)
    (hpal : p.alive = true) (hqal : q.alive = true) :
    NewLinks roster (commitMarriage roster p.pid q.pid) := by
  intro i x x' hx hx' s hs hnot
  obtain rfl : commitFun p.pid q.pid x = x' := by
    rw [commitMarriage] at hx'
    rw [List.getElem?_map, hx] at hx'
    simpa using hx'
  have hxmem : x ∈ roster := List.getElem?_mem hx
  rcases commitFun_spouses_cases _ _ x s hs with hold | ⟨hxa, rfl⟩ | ⟨hxb, rfl⟩
  · exact absurd hold hnot
  · obtain rfl : x = p := pid_injective hnd hxmem hp hxa
    exact ⟨hpal, q, hq, rfl, hqal⟩
  · obtain rfl : x = q := pid_injective hnd hxmem hq hxb
    exact ⟨hqal, p, hp, rfl, hpal⟩

end Popsim

namespace Popsim

theorem matingGo_nil (e : Environment) (roster : List Person) (att : List Nat)
    (r : RngState) : matingGo e [] roster att r = (roster, r) := rfl

theorem matingGo_cons_none (e : Environment) (i : Nat) (is : List Nat)
    (roster : List Person) (att : List Nat) (r : RngState)
    (h : roster[i]? = none) :
    matingGo e (i :: is) roster att r = matingGo e is roster att r := by
  simp [matingGo, h]

theorem matingGo_cons_skip (e : Environment) (i : Nat) (is : List Nat)
    (roster : List Person) (att : List Nat) (r : RngState) (p : Person)
    (h : roster[i]? = some p) (he : eligible e att p = false) :
    matingGo e (i :: is) roster att r = matingGo e is roster att r := by
  simp [matingGo, h, he]

theorem matingGo_cons_noCandidate (e : Environment) (i : Nat) (is : List Nat)
    (roster : List Person) (att : List Nat) (r : RngState) (p : Person)
    (h : roster[i]? = some p) (he : eligible e att p = true)
    (hf : findCandidate e att p roster = none) :
    matingGo e (i :: is) roster att r = matingGo e is roster att r := by
  simp [matingGo, h, he, hf]

theorem matingGo_cons_candidate (e : Environment) (i : Nat) (is : List Nat)
    (roster : List Person) (att : List Nat) (r : RngState) (p q : Person)
    (h : roster[i]? = some p) (he : eligible e att p = true)
    (hf : findCandidate e att p roster = some q) :
    matingGo e (i :: is) roster att r =
      matingGo e is
        (if (drawUnit r).1 < e.marriage_probability
         then commitMarriage roster p.pid q.pid else roster)
        (p.pid :: q.pid :: att) (drawUnit r).2 := by
  simp [matingGo, h, he, hf]

end Popsim

namespace Popsim

theorem matingGo_master (e : Environment) :
    ∀ (idxs : List Nat) (roster : List Person) (att : List Nat) (r : RngState),
      (roster.map Person.pid).Nodup →
      ((matingGo e idxs roster att r).1.map matCore = roster.map matCore ∧
       (Mutual roster → Mutual (matingGo e idxs roster att r).1) ∧
       (IncestInv e roster → IncestInv e (matingGo e idxs roster att r).1) ∧
       NewLinks roster (matingGo e idxs roster att r).1) := by
  intro idxs
  induction idxs with
  | nil =>
    intro roster att r hnd
    rw [matingGo_nil]
    exact ⟨rfl, fun h => h, fun h => h, newLinks_refl roster⟩
  | cons i is ih =>
    intro roster att r hnd
    rcases hro : roster[i]? with _ | p
    · rw [matingGo_cons_none e i is roster att r hro]
      exact ih roster att r hnd
    · by_cases he : eligible e att p = true
      · rcases hf : findCandidate e att p roster with _ | q
        · rw [matingGo_cons_noCandidate e i is roster att r p hro he hf]
          exact ih roster att r hnd
        · rw [matingGo_cons_candidate e i is roster att r p q hro he hf]
          by_cases hdraw : (drawUnit r).1 < e.marriage_probability
          · rw [if_pos hdraw]
            obtain ⟨hqmem, hqok⟩ := findCandidate_mem e att p roster q hf
            have hpmem : p ∈ roster := List.getElem?_mem hro
            obtain ⟨hne, hqal, hdist⟩ := candidateOK_facts e att p q hqok
            have hpal : p.alive = true := eligible_alive e att p he
            have hndc : ((commitMarriage roster p.pid q.pid).map Person.pid).Nodup := by
              rw [commitMarriage_pidMap]
              exact hnd
            obtain ⟨ihcore, ihmut, ihinc, ihnew⟩ :=
              ih (commitMarriage roster p.pid q.pid) (p.pid :: q.pid :: att)
                (drawUnit r).2 hndc
            refine ⟨?_, ?_, ?_, ?_⟩
            · rw [ihcore, commitMarriage_matCore]
            · intro hm
              exact ihmut (commitMarriage_mutual roster p.pid q.pid hne
                ⟨p, hpmem, rfl⟩ ⟨q, hqmem, rfl⟩ hm)
            · intro hi
              exact ihinc (commitMarriage_incest e roster p q hnd hpmem hqmem
                hne hdist hi)
            · exact newLinks_trans (commitMarriage_matCore roster p.pid q.pid)
                (commitMarriage_newLinks roster p q hnd hpmem hqmem hpal hqal)
                ihnew
          · rw [if_neg hdraw]
            exact ih roster (p.pid :: q.pid :: att) (drawUnit r).2 hnd
      · rw [matingGo_cons_skip e i is roster att r p hro (Bool.eq_false_iff.2 he)]
        exact ih roster att r hnd

theorem matingYear_master (e : Environment) (roster : List Person)
    (r : RngState) (hnd : (roster.map Person.pid).Nodup) :
    (matingYear e roster r).1.map matCore = roster.map matCore ∧
    (Mutual roster → Mutual (matingYear e roster r).1) ∧
    (IncestInv e roster → IncestInv e (matingYear e roster r).1) ∧
    NewLinks roster (matingYear e roster r).1 :=
  matingGo_master e (List.range roster.length) roster [] r hnd

end Popsim

namespace Popsim
theorem reproduceGo_cons (e : Environment) (pq : Person × Person)
    (rest : List (Person × Person)) (r : RngState) (res : ℚ) (nid : Nat)
    (c : Option Person) (r1 : RngState) (res1 : ℚ) (nid1 : Nat)
    (h : reproducePair e pq.1 pq.2 r res nid = (c, r1, res1, nid1)) :
    reproduceGo e (pq :: rest) r res nid =
      (c.toList ++ (reproduceGo e rest r1 res1 nid1).1,
       (reproduceGo e rest r1 res1 nid1).2.1,
       (reproduceGo e rest r1 res1 nid1).2.2.1,
       (reproduceGo e rest r1 res1 nid1).2.2.2.1,
       (reproduceGo e rest r1 res1 nid1).2.2.2.2 + c.toList.length) := by
  rw [reproduceGo, h]
end Popsim

namespace Popsim

theorem reproducePair_cases (e : Environment) (p q : Person) (r : RngState)
    (res : ℚ) (nid : Nat) :
    ((reproducePair e p q r res nid).1 = none ∧
     (reproducePair e p q r res nid).2.2.1 = res ∧
     (reproducePair e p q r res nid).2.2.2 = nid) ∨
    (0 < res ∧
     ∃ c, (reproducePair e p q r res nid).1 = some c ∧
       c.pid = nid ∧ c.spouses = [] ∧ c.alive = true ∧ c.age = 0 ∧
       (reproducePair e p q r res nid).2.2.1 = max 0 (res - 1) ∧
       (reproducePair e p q r res nid).2.2.2 = nid + 1) := by
  rw [reproducePair]
  split
  split
  case isTrue h =>
    simp only [Bool.and_eq_true, decide_eq_true_eq] at h
    exact Or.inr ⟨h.2, _, rfl, rfl, rfl, rfl, rfl, rfl, rfl⟩
  case isFalse h =>
    exact Or.inl ⟨rfl, rfl, rfl⟩

theorem reproducePair_exhausted (e : Environment) (p q : Person)
    (r : RngState) (res : ℚ) (nid : Nat) (h : res ≤ 0) :
    reproducePair e p q r res nid = (none, (drawUnit r).2, res, nid) := by
  rw [reproducePair]
  have hc : decide (0 < res) = false := by simp [not_lt.2 h]
  split
  next u r' heq =>
    rw [hc]
    simp [heq]

end Popsim

namespace Popsim

theorem reproduceGo_nil (e : Environment) (r : RngState) (res : ℚ)
    (nid : Nat) : reproduceGo e [] r res nid = ([], r, res, nid, 0) := rfl

theorem reproduceGo_facts (e : Environment) :
    ∀ (pairs : List (Person × Person)) (r : RngState) (res : ℚ) (nid : Nat),
      (reproduceGo e pairs r res nid).2.2.2.1 =
        nid + (reproduceGo e pairs r res nid).1.length ∧
      (reproduceGo e pairs r res nid).1.map Person.pid =
        List.range' nid (reproduceGo e pairs r res nid).1.length ∧
      (∀ c ∈ (reproduceGo e pairs r res nid).1,
        c.spouses = [] ∧ c.alive = true ∧ c.age = 0) ∧
      (0 ≤ res → 0 ≤ (reproduceGo e pairs r res nid).2.2.1 ∧
        (reproduceGo e pairs r res nid).2.2.1 ≤ res) := by
  intro pairs
  induction pairs with
  | nil =>
    intro r res nid
    rw [reproduceGo_nil]
    exact ⟨rfl, by simp, by simp, fun h => ⟨h, le_refl res⟩⟩
  | cons pq rest ih =>
    intro r res nid
    rcases hrp : reproducePair e pq.1 pq.2 r res nid with ⟨c, r1, res1, nid1⟩
    rw [reproduceGo_cons e pq rest r res nid c r1 res1 nid1 hrp]
    have hcase := reproducePair_cases e pq.1 pq.2 r res nid
    rw [hrp] at hcase
    simp only at hcase
    rcases hcase with ⟨hc, hres1, hnid1⟩ | ⟨hpos, c', hc, hcpid, hcsp, hcal, hcage, hres1, hnid1⟩
    · subst hc
      subst hres1
      subst hnid1
      obtain ⟨ih1, ih2, ih3, ih4⟩ := ih r1 res1 nid1
      simp only [Option.toList_none, List.nil_append, List.length_nil]
      refine ⟨by simpa using ih1, by simpa using ih2, by simpa using ih3, ih4⟩
    · subst hc
      subst hres1
      subst hnid1
      obtain ⟨ih1, ih2, ih3, ih4⟩ := ih r1 (max 0 (res - 1)) (nid + 1)
      simp only [Option.toList_some, List.singleton_append, List.length_cons]
      refine ⟨?_, ?_, ?_, ?_⟩
      · rw [ih1]
        omega
      · rw [List.map_cons, hcpid, ih2]
        rw [List.range'_succ]
      · intro x hx
        rcases List.mem_cons.1 hx with rfl | hx'
        · exact ⟨hcsp, hcal, hcage⟩
        · exact ih3 x hx'
      · intro hres
        have h1 : (0:ℚ) ≤ max 0 (res - 1) := le_max_left 0 (res - 1)
        obtain ⟨ha, hb⟩ := ih4 h1
        refine ⟨ha, le_trans hb ?_⟩
        exact max_le hres (sub_le_self res (by norm_num))

end Popsim

namespace Popsim

theorem reproduceGo_exhausted (e : Environment) :
    ∀ (pairs : List (Person × Person)) (r : RngState) (res : ℚ) (nid : Nat),
      res ≤ 0 →
      (reproduceGo e pairs r res nid).1 = [] ∧
      (reproduceGo e pairs r res nid).2.2.1 = res ∧
      (reproduceGo e pairs r res nid).2.2.2.1 = nid ∧
      (reproduceGo e pairs r res nid).2.2.2.2 = 0 := by
  intro pairs
  induction pairs with
  | nil =>
    intro r res nid h
    rw [reproduceGo_nil]
    exact ⟨rfl, rfl, rfl, rfl⟩
  | cons pq rest ih =>
    intro r res nid h
    have hrp := reproducePair_exhausted e pq.1 pq.2 r res nid h
    rw [reproduceGo_cons e pq rest r res nid none (drawUnit r).2 res nid hrp]
    obtain ⟨ih1, ih2, ih3, ih4⟩ := ih (drawUnit r).2 res nid h
    simp only [Option.toList_none, List.nil_append, List.length_nil]
    exact ⟨ih1, ih2, ih3, by rw [ih4]⟩

theorem initFounders_cons (maxAge : Nat) (n : Nat) (r : RngState) (nid : Nat) :
    initFounders maxAge (n + 1) r nid =
      ((mkFounder r nid maxAge).1 ::
         (initFounders maxAge n (mkFounder r nid maxAge).2 (nid + 1)).1,
       (initFounders maxAge n (mkFounder r nid maxAge).2 (nid + 1)).2.1,
       (initFounders maxAge n (mkFounder r nid maxAge).2 (nid + 1)).2.2) := rfl

theorem mkFounder_fields (r : RngState) (nid maxAge : Nat) :
    (mkFounder r nid maxAge).1.pid = nid ∧
    (mkFounder r nid maxAge).1.spouses = [] ∧
    (mkFounder r nid maxAge).1.alive = true := ⟨rfl, rfl, rfl⟩

theorem initFounders_facts (maxAge : Nat) :
    ∀ (n : Nat) (r : RngState) (nid : Nat),
      (initFounders maxAge n r nid).2.2 = nid + n ∧
      (initFounders maxAge n r nid).1.map Person.pid = List.range' nid n ∧
      (∀ p ∈ (initFounders maxAge n r nid).1,
        p.spouses = [] ∧ p.alive = true) := by
  intro n
  induction n with
  | zero =>
    intro r nid
    refine ⟨rfl, ?_, ?_⟩
    · show ([] : List Person).map Person.pid = List.range' nid 0
      simp
    · show ∀ p ∈ ([] : List Person), p.spouses = [] ∧ p.alive = true
      simp
  | succ n ih =>
    intro r nid
    rw [initFounders_cons]
    obtain ⟨ih1, ih2, ih3⟩ := ih (mkFounder r nid maxAge).2 (nid + 1)
    obtain ⟨hp, hs, ha⟩ := mkFounder_fields r nid maxAge
    refine ⟨?_, ?_, ?_⟩
    · simp only
      rw [ih1]
      omega
    · simp only [List.map_cons, hp, ih2]
      rw [List.range'_succ]
    · intro x hx
      rcases List.mem_cons.1 hx with rfl | hx'
      · exact ⟨hs, ha⟩
      · exact ih3 x hx'

end Popsim

namespace Popsim

theorem stepYear_roster (e : Environment) (st : PopState) :
    (stepYear e st).roster =
      (matingYear e (mortalityYear e st.roster st.rng).1
          (mortalityYear e st.roster st.rng).2.1).1 ++
        (reproduceGo e
          (marriedPairs (matingYear e (mortalityYear e st.roster st.rng).1
            (mortalityYear e st.roster st.rng).2.1).1)
          (matingYear e (mortalityYear e st.roster st.rng).1
            (mortalityYear e st.roster st.rng).2.1).2
          st.resources st.nextId).1 := rfl

theorem stepYear_resources (e : Environment) (st : PopState) :
    (stepYear e st).resources =
      (reproduceGo e
        (marriedPairs (matingYear e (mortalityYear e st.roster st.rng).1
          (mortalityYear e st.roster st.rng).2.1).1)
        (matingYear e (mortalityYear e st.roster st.rng).1
          (mortalityYear e st.roster st.rng).2.1).2
        st.resources st.nextId).2.2.1 := rfl

theorem stepYear_nextId (e : Environment) (st : PopState) :
    (stepYear e st).nextId =
      (reproduceGo e
        (marriedPairs (matingYear e (mortalityYear e st.roster st.rng).1
          (mortalityYear e st.roster st.rng).2.1).1)
        (matingYear e (mortalityYear e st.roster st.rng).1
          (mortalityYear e st.roster st.rng).2.1).2
        st.resources st.nextId).2.2.2.1 := rfl

theorem stepYear_popHist (e : Environment) (st : PopState) :
    (stepYear e st).population_history =
      st.population_history ++ [aliveCount (stepYear e st).roster] := rfl

theorem stepYear_meanHist (e : Environment) (st : PopState) :
    (stepYear e st).mean_age_history =
      st.mean_age_history ++ [meanAge (stepYear e st).roster] := rfl

theorem stepYear_birthsHist (e : Environment) (st : PopState) :
    ∃ b, (stepYear e st).births_history = st.births_history ++ [b] := ⟨_, rfl⟩

theorem stepYear_deathsHist (e : Environment) (st : PopState) :
    ∃ d, (stepYear e st).deaths_history = st.deaths_history ++ [d] := ⟨_, rfl⟩

theorem stepYears_add (e : Environment) (a b : Nat) (st : PopState) :
    stepYears e (a + b) st = stepYears e b (stepYears e a st) := by
  induction a generalizing st with
  | zero => rw [Nat.zero_add]; rfl
  | succ n ih =>
    rw [Nat.succ_add]
    exact ih (stepYear e st)

theorem stepYears_hist_growth (e : Environment) (n : Nat) (st : PopState) :
    ∃ tp tm tb td, tp.length = n ∧ tm.length = n ∧ tb.length = n ∧
      td.length = n ∧
      (stepYears e n st).population_history = st.population_history ++ tp ∧
      (stepYears e n st).mean_age_history = st.mean_age_history ++ tm ∧
      (stepYears e n st).births_history = st.births_history ++ tb ∧
      (stepYears e n st).deaths_history = st.deaths_history ++ td := by
  induction n generalizing st with
  | zero =>
    exact ⟨[], [], [], [], rfl, rfl, rfl, rfl, by simp [stepYears],
      by simp [stepYears], by simp [stepYears], by simp [stepYears]⟩
  | succ n ih =>
    obtain ⟨tp, tm, tb, td, hlp, hlm, hlb, hld, hp, hm, hb, hd⟩ :=
      ih (stepYear e st)
    obtain ⟨b, hb1⟩ := stepYear_birthsHist e st
    obtain ⟨d, hd1⟩ := stepYear_deathsHist e st
    refine ⟨aliveCount (stepYear e st).roster :: tp,
      meanAge (stepYear e st).roster :: tm, b :: tb, d :: td,
      by simp [hlp], by simp [hlm], by simp [hlb], by simp [hld],
      ?_, ?_, ?_, ?_⟩
    · show (stepYears e n (stepYear e st)).population_history = _
      rw [hp, stepYear_popHist]
      simp
    · show (stepYears e n (stepYear e st)).mean_age_history = _
      rw [hm, stepYear_meanHist]
      simp
    · show (stepYears e n (stepYear e st)).births_history = _
      rw [hb, hb1]
      simp
    · show (stepYears e n (stepYear e st)).deaths_history = _
      rw [hd, hd1]
      simp

end Popsim

namespace Popsim

theorem mem_transfer {α : Type} {f : Person → α}
    {r₀ r₁ : List Person} (h : r₁.map f = r₀.map f) :
    ∀ x ∈ r₁, ∃ y ∈ r₀, f y = f x := by
  intro x hx
  have : f x ∈ r₀.map f := by
    rw [← h]
    exact List.mem_map_of_mem f hx
  obtain ⟨y, hy, hfy⟩ := List.mem_map.1 this
  exact ⟨y, hy, hfy⟩

theorem pidMap_of_idCoreMap {r₀ r₁ : List Person}
    (h : r₁.map idCore = r₀.map idCore) :
    r₁.map Person.pid = r₀.map Person.pid := by
  have h2 := congrArg (List.map Prod.fst) h
  rw [List.map_map, List.map_map] at h2
  have e1 : ∀ (l : List Person), l.map (Prod.fst ∘ idCore) = l.map Person.pid :=
    fun l => List.map_congr_left (fun p _ => rfl)
  rw [e1, e1] at h2
  exact h2

theorem pidMap_of_matCoreMap {r₀ r₁ : List Person}
    (h : r₁.map matCore = r₀.map matCore) :
    r₁.map Person.pid = r₀.map Person.pid := by
  have h2 := congrArg (List.map Prod.fst) h
  rw [List.map_map, List.map_map] at h2
  have e1 : ∀ (l : List Person), l.map (Prod.fst ∘ matCore) = l.map Person.pid :=
    fun l => List.map_congr_left (fun p _ => rfl)
  rw [e1, e1] at h2
  exact h2

theorem idCore_transfer (e : Environment) {r₀ r₁ : List Person}
    (h : r₁.map idCore = r₀.map idCore) :
    (Mutual r₀ → Mutual r₁) ∧ (IncestInv e r₀ → IncestInv e r₁) ∧
    (∀ n, (∀ p ∈ r₀, p.pid < n) → ∀ p ∈ r₁, p.pid < n) ∧
    (∀ n, (∀ p ∈ r₀, ∀ s ∈ p.spouses, s < n) →
      ∀ p ∈ r₁, ∀ s ∈ p.spouses, s < n) := by
  refine ⟨?_, ?_, ?_, ?_⟩
  · intro hm p hp s hs
    obtain ⟨p₀, hp₀, hfp⟩ := mem_transfer h p hp
    obtain ⟨hpid, hgen, hsp, hpar, hsex⟩ := idCore_eq_iff.1 hfp
    obtain ⟨q₀, hq₀, hqpid, hqsp⟩ := hm p₀ hp₀ s (by rw [hsp]; exact hs)
    obtain ⟨q₁, hq₁, hfq⟩ := mem_transfer h.symm q₀ hq₀
    obtain ⟨hqpid', hqgen', hqsp', _, _⟩ := idCore_eq_iff.1 hfq
    exact ⟨q₁, hq₁, by rw [hqpid']; exact hqpid,
      by rw [← hpid, hqsp']; exact hqsp⟩
  · intro hi p hp q hq hlink
    obtain ⟨p₀, hp₀, hfp⟩ := mem_transfer h p hp
    obtain ⟨hppid, hpgen, hpsp, _, _⟩ := idCore_eq_iff.1 hfp
    obtain ⟨q₀, hq₀, hfq⟩ := mem_transfer h q hq
    obtain ⟨hqpid, hqgen, hqsp, _, _⟩ := idCore_eq_iff.1 hfq
    have := hi p₀ hp₀ q₀ hq₀ (by rw [hqpid, hpsp]; exact hlink)
    rw [hpgen, hqgen] at this
    exact this
  · intro n hb p hp
    obtain ⟨p₀, hp₀, hfp⟩ := mem_transfer h p hp
    obtain ⟨hpid, _, _, _, _⟩ := idCore_eq_iff.1 hfp
    rw [← hpid]
    exact hb p₀ hp₀
  · intro n hb p hp s hs
    obtain ⟨p₀, hp₀, hfp⟩ := mem_transfer h p hp
    obtain ⟨_, _, hsp, _, _⟩ := idCore_eq_iff.1 hfp
    exact hb p₀ hp₀ s (by rw [hsp]; exact hs)

end Popsim

namespace Popsim

theorem matCore_pid_bound_transfer {r₀ r₁ : List Person}
    (h : r₁.map matCore = r₀.map matCore) (n : Nat)
    (hb : ∀ p ∈ r₀, p.pid < n) : ∀ p ∈ r₁, p.pid < n := by
  intro p hp
  obtain ⟨p₀, hp₀, hfp⟩ := mem_transfer h p hp
  obtain ⟨hpid, _, _, _, _, _⟩ := matCore_eq_iff.1 hfp
  rw [← hpid]
  exact hb p₀ hp₀

theorem mating_spouse_bound (e : Environment) (roster1 : List Person)
    (r1 : RngState) (n : Nat) (hnd : (roster1.map Person.pid).Nodup)
    (hb1 : ∀ p ∈ roster1, p.pid < n)
    (hsb : ∀ p ∈ roster1, ∀ s ∈ p.spouses, s < n) :
    ∀ p ∈ (matingYear e roster1 r1).1, ∀ s ∈ p.spouses, s < n := by
  obtain ⟨hcore, _, _, hnew⟩ := matingYear_master e roster1 r1 hnd
  intro p2 hp2 s hs
  obtain ⟨i, hi⟩ := List.getElem?_of_mem hp2
  have hi2 : i < (matingYear e roster1 r1).1.length :=
    (List.getElem?_eq_some_iff.1 hi).1
  have hi1 : i < roster1.length := by
    rw [← length_eq_of_map_eq hcore]
    exact hi2
  obtain ⟨p1, hp1⟩ : ∃ p1, roster1[i]? = some p1 :=
    ⟨roster1[i], List.getElem?_eq_getElem hi1⟩
  by_cases hcase : s ∈ p1.spouses
  · exact hsb p1 (List.getElem?_mem hp1) s hcase
  · obtain ⟨_, q, hq, hqpid, _⟩ := hnew i p1 p2 hp1 hi s hs hcase
    rw [← hqpid]
    exact hb1 q hq

theorem valid_resources (e : Environment) (h : e.valid = true) :
    0 ≤ e.resources := by
  simp only [Environment.valid, Bool.and_eq_true, decide_eq_true_eq] at h
  exact h.1.1.1.1.1.1.1

end Popsim

namespace Popsim

theorem mortality_goodRoster (e : Environment) (roster : List Person)
    (r : RngState) (nid : Nat) (h : GoodRoster e roster nid) :
    GoodRoster e (mortalityYear e roster r).1 nid := by
  obtain ⟨hnd, hpid, hsb, hinc, hmut⟩ := h
  have hid := mortalityYear_idCore e roster r
  obtain ⟨tm, ti, tp, ts⟩ := idCore_transfer e hid
  refine ⟨?_, tp nid hpid, ts nid hsb, ti hinc, tm hmut⟩
  rw [pidMap_of_idCoreMap hid]
  exact hnd

theorem mating_goodRoster (e : Environment) (roster : List Person)
    (r : RngState) (nid : Nat) (h : GoodRoster e roster nid) :
    GoodRoster e (matingYear e roster r).1 nid := by
  obtain ⟨hnd, hpid, hsb, hinc, hmut⟩ := h
  obtain ⟨hcore, hmut2, hinc2, hnew⟩ := matingYear_master e roster r hnd
  refine ⟨?_, matCore_pid_bound_transfer hcore nid hpid,
    mating_spouse_bound e roster r nid hnd hpid hsb, hinc2 hinc, hmut2 hmut⟩
  rw [pidMap_of_matCoreMap hcore]
  exact hnd

theorem reproduction_goodRoster (e : Environment) (roster : List Person)
    (pairs : List (Person × Person)) (r : RngState) (res : ℚ) (nid : Nat)
    (h : GoodRoster e roster nid) :
    GoodRoster e (roster ++ (reproduceGo e pairs r res nid).1)
      (reproduceGo e pairs r res nid).2.2.2.1 := by
  obtain ⟨hnd, hpid, hsb, hinc, hmut⟩ := h
  obtain ⟨hn1, hn2, hn3, _⟩ := reproduceGo_facts e pairs r res nid
  have hqfresh : ∀ q ∈ (reproduceGo e pairs r res nid).1, nid ≤ q.pid := by
    intro q hq
    have : q.pid ∈ (reproduceGo e pairs r res nid).1.map Person.pid :=
      List.mem_map_of_mem Person.pid hq
    rw [hn2] at this
    exact (List.mem_range'_1.1 this).1
  have hqbound : ∀ q ∈ (reproduceGo e pairs r res nid).1,
      q.pid < nid + (reproduceGo e pairs r res nid).1.length := by
    intro q hq
    have : q.pid ∈ (reproduceGo e pairs r res nid).1.map Person.pid :=
      List.mem_map_of_mem Person.pid hq
    rw [hn2] at this
    exact (List.mem_range'_1.1 this).2
  refine ⟨?_, ?_, ?_, ?_, ?_⟩
  · rw [List.map_append, hn2]
    refine List.Nodup.append hnd
      (List.nodup_range' nid (reproduceGo e pairs r res nid).1.length 1
        Nat.one_pos) ?_
    intro x hx hx'
    obtain ⟨p, hp, rfl⟩ := List.mem_map.1 hx
    have h1 : p.pid < nid := hpid p hp
    have h2 : nid ≤ p.pid := (List.mem_range'_1.1 hx').1
    omega
  · intro p hp
    rw [hn1]
    rcases List.mem_append.1 hp with h1 | h2
    · exact lt_of_lt_of_le (hpid p h1) (Nat.le_add_right _ _)
    · exact hqbound p h2
  · intro p hp s hs
    rw [hn1]
    rcases List.mem_append.1 hp with h1 | h2
    · exact lt_of_lt_of_le (hsb p h1 s hs) (Nat.le_add_right _ _)
    · rw [(hn3 p h2).1] at hs
      simp at hs
  · intro p hp q hq hlink
    rcases List.mem_append.1 hp with h1 | h2
    · rcases List.mem_append.1 hq with g1 | g2
      · exact hinc p h1 q g1 hlink
      · have ha : q.pid < nid := hsb p h1 q.pid hlink
        have hb : nid ≤ q.pid := hqfresh q g2
        omega
    · rw [(hn3 p h2).1] at hlink
      simp at hlink
  · intro p hp s hs
    rcases List.mem_append.1 hp with h1 | h2
    · obtain ⟨q, hq, hqpid, hqsp⟩ := hmut p h1 s hs
      exact ⟨q, List.mem_append_left _ hq, hqpid, hqsp⟩
    · rw [(hn3 p h2).1] at hs
      simp at hs

theorem stepYear_good (e : Environment) (st : PopState)
    (hg : GoodState e st) : GoodState e (stepYear e st) := by
  obtain ⟨hgr, hres⟩ := hg
  have h1 := mortality_goodRoster e st.roster st.rng st.nextId hgr
  have h2 := mating_goodRoster e (mortalityYear e st.roster st.rng).1
    (mortalityYear e st.roster st.rng).2.1 st.nextId h1
  have h3 := reproduction_goodRoster e
    (matingYear e (mortalityYear e st.roster st.rng).1
      (mortalityYear e st.roster st.rng).2.1).1
    (marriedPairs (matingYear e (mortalityYear e st.roster st.rng).1
      (mortalityYear e st.roster st.rng).2.1).1)
    (matingYear e (mortalityYear e st.roster st.rng).1
      (mortalityYear e st.roster st.rng).2.1).2
    st.resources st.nextId h2
  constructor
  · show GoodRoster e (stepYear e st).roster (stepYear e st).nextId
    rw [stepYear_roster, stepYear_nextId]
    exact h3
  · show 0 ≤ (stepYear e st).resources
    rw [stepYear_resources]
    exact ((reproduceGo_facts e
      (marriedPairs (matingYear e (mortalityYear e st.roster st.rng).1
        (mortalityYear e st.roster st.rng).2.1).1)
      (matingYear e (mortalityYear e st.roster st.rng).1
        (mortalityYear e st.roster st.rng).2.1).2
      st.resources st.nextId).2.2.2 hres).1

end Popsim

namespace Popsim

theorem reachable_good (e : Environment) (st : PopState) (h : Reachable e st) :
    GoodState e st := by
  induction h with
  | init seed count maxAge hv =>
    obtain ⟨hf1, hf2, hf3⟩ := initFounders_facts maxAge count seed 0
    constructor
    · show GoodRoster e
        ([] ++ (initFounders maxAge count seed 0).1)
        (initFounders maxAge count seed 0).2.2
      rw [List.nil_append, hf1]
      refine ⟨?_, ?_, ?_, ?_, ?_⟩
      · rw [hf2]
        exact List.nodup_range' 0 count 1 Nat.one_pos
      · intro p hp
        have hm : p.pid ∈ List.range' 0 count := by
          rw [← hf2]
          exact List.mem_map_of_mem _ hp
        have := (List.mem_range'_1.1 hm).2
        omega
      · intro p hp s hs
        rw [(hf3 p hp).1] at hs
        simp at hs
      · intro p hp q hq hlink
        rw [(hf3 p hp).1] at hlink
        simp at hlink
      · intro p hp s hs
        rw [(hf3 p hp).1] at hs
        simp at hs
    · show 0 ≤ e.resources
      exact valid_resources e hv
  | succ st h ih => exact stepYear_good e st ih

end Popsim

namespace Popsim

theorem matingGo_matCore (e : Environment) :
    ∀ (idxs : List Nat) (roster : List Person) (att : List Nat) (r : RngState),
      (matingGo e idxs roster att r).1.map matCore = roster.map matCore := by
  intro idxs
  induction idxs with
  | nil =>
    intro roster att r
    rw [matingGo_nil]
  | cons i is ih =>
    intro roster att r
    rcases hro : roster[i]? with _ | p
    · rw [matingGo_cons_none e i is roster att r hro]
      exact ih roster att r
    · by_cases he : eligible e att p = true
      · rcases hf : findCandidate e att p roster with _ | q
        · rw [matingGo_cons_noCandidate e i is roster att r p hro he hf]
          exact ih roster att r
        · rw [matingGo_cons_candidate e i is roster att r p q hro he hf]
          by_cases hdraw : (drawUnit r).1 < e.marriage_probability
          · rw [if_pos hdraw, ih, commitMarriage_matCore]
          · rw [if_neg hdraw, ih]
      · rw [matingGo_cons_skip e i is roster att r p hro (Bool.eq_false_iff.2 he)]
        exact ih roster att r

theorem stepYear_person (e : Environment) (st : PopState) (i : Nat) (p : Person)
    (h : st.roster[i]? = some p) :
    ∃ p', (stepYear e st).roster[i]? = some p' ∧ p'.pid = p.pid ∧
      (p.alive = false → p'.alive = false ∧ p'.age = p.age) ∧
      (p.alive = true → p'.alive = true → p'.age = p.age + 1) ∧
      (p.alive = true → p'.alive = false → p'.age = p.age) ∧
      p.age ≤ p'.age := by
  obtain ⟨p1, h1, hcases⟩ := mortalityYear_get e st.roster st.rng i p h
  have hcore := matingGo_matCore e
    (List.range (mortalityYear e st.roster st.rng).1.length)
    (mortalityYear e st.roster st.rng).1 []
    (mortalityYear e st.roster st.rng).2.1
  have hi1 : i < (mortalityYear e st.roster st.rng).1.length :=
    (List.getElem?_eq_some_iff.1 h1).1
  have hi2 : i < (matingYear e (mortalityYear e st.roster st.rng).1
      (mortalityYear e st.roster st.rng).2.1).1.length := by
    show i < (matingGo e _ _ _ _).1.length
    rw [length_eq_of_map_eq hcore]
    exact hi1
  obtain ⟨p2, h2⟩ : ∃ p2,
      (matingYear e (mortalityYear e st.roster st.rng).1
        (mortalityYear e st.roster st.rng).2.1).1[i]? = some p2 :=
    ⟨(matingYear e (mortalityYear e st.roster st.rng).1
        (mortalityYear e st.roster st.rng).2.1).1[i],
     List.getElem?_eq_getElem hi2⟩
  have hmc : matCore p2 = matCore p1 := map_getElem_eq hcore h1 h2
  obtain ⟨hpid2, hage2, _, hal2, _, _⟩ := matCore_eq_iff.1 hmc
  have h3 : (stepYear e st).roster[i]? = some p2 := by
    rw [stepYear_roster]
    rw [List.getElem?_append_left hi2]
    exact h2
  refine ⟨p2, h3, ?_, ?_, ?_, ?_, ?_⟩
  · rw [hpid2]
    rcases hcases with ⟨_, rfl⟩ | ⟨_, rfl | rfl⟩ <;> rfl
  · intro hdead
    rcases hcases with ⟨_, rfl⟩ | ⟨hal, _⟩
    · exact ⟨by rw [hal2]; exact hdead, by rw [hage2]⟩
    · rw [hal] at hdead
      simp at hdead
  · intro hal hal'
    rcases hcases with ⟨hd, rfl⟩ | ⟨_, rfl | rfl⟩
    · rw [hd] at hal
      simp at hal
    · rw [hal2] at hal'
      simp at hal'
    · rw [hage2]
  · intro hal hal'
    rcases hcases with ⟨hd, rfl⟩ | ⟨_, rfl | rfl⟩
    · rw [hd] at hal
      simp at hal
    · rw [hage2]
    · rw [hal2] at hal'
      simp [hal] at hal'
  · rcases hcases with ⟨_, rfl⟩ | ⟨_, rfl | rfl⟩
    · omega
    · rw [hage2]
    · rw [hage2]
      exact Nat.le_succ _

end Popsim

namespace Popsim

theorem meanAge_zero (roster : List Person) (h : aliveCount roster = 0) :
    meanAge roster = 0 := by
  unfold aliveCount at h
  unfold meanAge
  rw [if_pos h]

theorem stepYears_pop_entry (e : Environment) :
    ∀ (n : Nat) (st : PopState) (i : Nat), i < n →
      (stepYears e n st).population_history[st.population_history.length + i]? =
        some (aliveCount (stepYears e (i + 1) st).roster) := by
  intro n
  induction n with
  | zero =>
    intro st i h
    omega
  | succ n ih =>
    intro st i hi
    cases i with
    | zero =>
      obtain ⟨tp, tm, tb, td, hlp, _, _, _, hp, _, _, _⟩ :=
        stepYears_hist_growth e n (stepYear e st)
      show (stepYears e n (stepYear e st)).population_history[st.population_history.length + 0]? = _
      rw [hp, stepYear_popHist, List.append_assoc]
      rw [List.getElem?_append_right (by simp)]
      simp
      rfl
    | succ j =>
      have ih' := ih (stepYear e st) j (by omega)
      have hlen : (stepYear e st).population_history.length =
          st.population_history.length + 1 := by
        rw [stepYear_popHist]
        simp
      show (stepYears e n (stepYear e st)).population_history[st.population_history.length + (j + 1)]? = _
      have harith : st.population_history.length + (j + 1) =
          (stepYear e st).population_history.length + j := by
        rw [hlen]
        omega
      rw [harith]
      exact ih'

end Popsim

namespace Popsim

/-- Claim C5: in every reachable population state, every committed marriage
pair satisfies the configured incest relation against
`Environment.incest_threshold` under the documented direction (the genetic
distance over the full genomes is at least the threshold); no committed
pair violates it. -/
theorem incest_constraint (e : Environment) (st : PopState)
    (h : Reachable e st) :
    ∀ p ∈ persons st, ∀ q ∈ persons st, q.pid ∈ p.spouses →
      e.incest_threshold ≤ distance p.genome q.genome :=
  (reachable_good e st h).1.2.2.2.1

/-- Witness for C5 at a concrete married pair of a reachable state. -/
theorem incest_constraint_witness :
    w5Env.incest_threshold ≤ distance w5A.genome w5B.genome :=
  incest_constraint w5Env w5State
    (Reachable.succ _ (Reachable.init 0 2 0 (by decide)))
    w5A (by decide) w5B (by decide) (by decide)

/-- Claim C6: in every reachable population state every spouse link is
mutual, and during the mating stage of the next simulated year every newly
committed link joins two persons that are alive at the moment the link is
formed (the mating stage is the only stage that creates links, and it never
changes vital status, so aliveness in its input roster is aliveness at
commit time). -/
theorem marriage_mutual_alive (e : Environment) (st : PopState)
    (h : Reachable e st) :
    (∀ p ∈ persons st, ∀ s ∈ p.spouses,
      ∃ q ∈ persons st, q.pid = s ∧ p.pid ∈ q.spouses) ∧
    NewLinks (mortalityYear e st.roster st.rng).1
      (matingYear e (mortalityYear e st.roster st.rng).1
        (mortalityYear e st.roster st.rng).2.1).1 := by
  have hg := reachable_good e st h
  refine ⟨hg.1.2.2.2.2, ?_⟩
  have h1 := mortality_goodRoster e st.roster st.rng st.nextId hg.1
  exact (matingYear_master e (mortalityYear e st.roster st.rng).1
    (mortalityYear e st.roster st.rng).2.1 h1.1).2.2.2

/-- Witness for C6 at a concrete committed marriage: the reciprocal link
exists, and both ends of the link committed during the mating stage were
alive there. -/
theorem marriage_mutual_alive_witness :
    (persons w5State).any
      (fun q => q.pid == 1 && decide (w5A.pid ∈ q.spouses)) = true ∧
    w6X.alive = true ∧
    w6M.any (fun q => q.pid == 1 && q.alive) = true := by
  have h1 := (marriage_mutual_alive w5Env w5State
    (Reachable.succ _ (Reachable.init 0 2 0 (by decide)))).1
    w5A (by decide) 1 (by decide)
  have h2 := (marriage_mutual_alive w5Env w5Pre
    (Reachable.init 0 2 0 (by decide))).2
    0 w6X w6Y (by decide) (by decide) 1 (by decide) (by decide)
  refine ⟨?_, h2.1, ?_⟩
  · obtain ⟨q, hq, hqpid, hqsp⟩ := h1
    exact List.any_eq_true.2 ⟨q, hq, by simp [hqpid, hqsp]⟩
  · obtain ⟨q, hq, hqpid, hqal⟩ := h2.2
    exact List.any_eq_true.2 ⟨q, hq, by simp [hqpid, hqal]⟩

end Popsim

namespace Popsim

theorem stepYears_person (e : Environment) (k : Nat) :
    ∀ (st : PopState) (i : Nat) (p : Person), st.roster[i]? = some p →
      ∃ p'', (stepYears e k st).roster[i]? = some p'' ∧ p.age ≤ p''.age ∧
        (p.alive = false → p''.alive = false ∧ p''.age = p.age) := by
  induction k with
  | zero =>
    intro st i p h
    exact ⟨p, h, Nat.le_refl _, fun hd => ⟨hd, rfl⟩⟩
  | succ k ihk =>
    intro st i p h
    obtain ⟨p', h1, hpid, hdead, hinc, hfr, hmono⟩ := stepYear_person e st i p h
    obtain ⟨p'', h2, hmono2, hdead2⟩ := ihk (stepYear e st) i p' h1
    refine ⟨p'', h2, le_trans hmono hmono2, fun hd => ?_⟩
    obtain ⟨hd1, hage1⟩ := hdead hd
    obtain ⟨hd2, hage2⟩ := hdead2 hd1
    exact ⟨hd2, by rw [hage2, hage1]⟩

/-- Claim C7: a person alive before a simulated year who is alive after it
has aged by exactly one; a person already deceased keeps vital status and
age unchanged through the year, and over any number of further years a
deceased person's age stays frozen at its value at death, so no person's
age ever decreases. -/
theorem age_monotone (e : Environment) (st : PopState) (i : Nat) (p : Person)
    (h : (persons st)[i]? = some p) :
    (∃ p', (persons (stepYear e st))[i]? = some p' ∧
      (p.alive = true → p'.alive = true → p'.age = p.age + 1) ∧
      (p.alive = false → p'.alive = false ∧ p'.age = p.age) ∧
      (p.alive = true → p'.alive = false → p'.age = p.age) ∧
      p.age ≤ p'.age) ∧
    (∀ k, ∃ p'', (persons (stepYears e k st))[i]? = some p'' ∧
      p.age ≤ p''.age ∧
      (p.alive = false → p''.alive = false ∧ p''.age = p.age)) := by
  constructor
  · obtain ⟨p', h1, hpid, hdead, hinc, hfr, hmono⟩ := stepYear_person e st i p h
    exact ⟨p', h1, hinc, hdead, hfr, hmono⟩
  · intro k
    exact stepYears_person e k st i p h

/-- Witness for C7 at a concrete roster position: the surviving founder
ages by exactly one over the first year and never gets younger over three
years. -/
theorem age_monotone_witness :
    wPersonA.age = wPerson.age + 1 ∧ wPerson.age ≤ wPersonA.age ∧
    wPerson.age ≤ wPersonC.age := by
  obtain ⟨⟨p', h1, hinc, hdead, hfr, hmono⟩, hk⟩ :=
    age_monotone wEnv wStateP 0 wPerson (by decide)
  obtain rfl : p' = wPersonA := by
    have h2 : (persons (stepYear wEnv wStateP))[0]? = some wPersonA := by decide
    rw [h1] at h2
    exact Option.some.inj h2
  obtain ⟨p'', h3, hmono2, _⟩ := hk 3
  obtain rfl : p'' = wPersonC := by
    have h4 : (persons (stepYears wEnv 3 wStateP))[0]? = some wPersonC := by
      decide
    rw [h3] at h4
    exact Option.some.inj h4
  exact ⟨hinc (by decide) (by decide), hmono, hmono2⟩

end Popsim

namespace Popsim

/-- Claim C8: a successful `step(k)` call grows each of the four history
series by exactly `k` entries, one per simulated year in year order, never
rewriting previously appended entries (the old series is a preserved
prefix); and the mean-age entry appended for a year with no living persons
is 0, not undefined. -/
theorem history_growth (st : PopState) (k : Int) (st' : PopState)
    (h : step st k = Except.ok st') :
    (population_history st').length =
      (population_history st).length + k.toNat ∧
    (mean_age_history st').length =
      (mean_age_history st).length + k.toNat ∧
    (births_history st').length = (births_history st).length + k.toNat ∧
    (deaths_history st').length = (deaths_history st).length + k.toNat ∧
    (population_history st').take (population_history st).length =
      population_history st ∧
    (mean_age_history st').take (mean_age_history st).length =
      mean_age_history st ∧
    (births_history st').take (births_history st).length =
      births_history st ∧
    (deaths_history st').take (deaths_history st).length =
      deaths_history st ∧
    (∀ (e₀ : Environment) (st₀ : PopState),
      aliveCount (stepYear e₀ st₀).roster = 0 →
      mean_age_history (stepYear e₀ st₀) = mean_age_history st₀ ++ [0]) := by
  rw [step] at h
  split at h
  · simp at h
  · split at h
    · simp at h
    · next e henv =>
      obtain rfl : stepYears e k.toNat st = st' := by simpa using h
      obtain ⟨tp, tm, tb, td, hlp, hlm, hlb, hld, hp, hm, hb, hd⟩ :=
        stepYears_hist_growth e k.toNat st
      refine ⟨?_, ?_, ?_, ?_, ?_, ?_, ?_, ?_, ?_⟩
      · show (stepYears e k.toNat st).population_history.length = _
        rw [hp]
        simp [hlp, population_history]
      · show (stepYears e k.toNat st).mean_age_history.length = _
        rw [hm]
        simp [hlm, mean_age_history]
      · show (stepYears e k.toNat st).births_history.length = _
        rw [hb]
        simp [hlb, births_history]
      · show (stepYears e k.toNat st).deaths_history.length = _
        rw [hd]
        simp [hld, deaths_history]
      · show (stepYears e k.toNat st).population_history.take _ = _
        rw [hp]
        exact List.take_left _ _
      · show (stepYears e k.toNat st).mean_age_history.take _ = _
        rw [hm]
        exact List.take_left _ _
      · show (stepYears e k.toNat st).births_history.take _ = _
        rw [hb]
        exact List.take_left _ _
      · show (stepYears e k.toNat st).deaths_history.take _ = _
        rw [hd]
        exact List.take_left _ _
      · intro e₀ st₀ hzero
        show (stepYear e₀ st₀).mean_age_history = st₀.mean_age_history ++ [0]
        rw [stepYear_meanHist, meanAge_zero _ hzero]

/-- Witness for C8: a concrete two-year step. -/
theorem history_growth_witness :
    (population_history (stepYears wEnv 2 wState)).length =
      (population_history wState).length + (2 : Int).toNat ∧
    (population_history (stepYears wEnv 2 wState)).take
        (population_history wState).length = population_history wState :=
  ⟨(history_growth wState 2 (stepYears wEnv 2 wState) rfl).1,
   (history_growth wState 2 (stepYears wEnv 2 wState) rfl).2.2.2.2.1⟩

end Popsim

namespace Popsim

/-- Claim C9: when the population starts with an empty population series,
entry `i` of `population_history()` equals the number of persons alive at
the end of simulated year `i + 1`; and when exactly `i + 1` total years
have been stepped with no further steps, that entry equals the count of
alive persons in the roster returned by `persons()`. -/
theorem population_count (e : Environment) (st : PopState) (n i : Nat)
    (h0 : st.population_history = []) (hi : i < n) :
    (population_history (stepYears e n st))[i]? =
      some (aliveCount (stepYears e (i + 1) st).roster) ∧
    (n = i + 1 →
      (population_history (stepYears e n st))[i]? =
        some (((persons (stepYears e n st)).filter
          (fun p => p.alive)).length)) := by
  have hgen := stepYears_pop_entry e n st i hi
  rw [h0] at hgen
  simp only [List.length_nil, Nat.zero_add] at hgen
  constructor
  · exact hgen
  · intro hn
    subst hn
    exact hgen

/-- Witness for C9: one founder, one year, entry 0. -/
theorem population_count_witness :
    (population_history (stepYears wEnv 1 wStateP))[0]? =
      some (aliveCount (stepYears wEnv (0 + 1) wStateP).roster) ∧
    (population_history (stepYears wEnv 1 wStateP))[0]? =
      some (((persons (stepYears wEnv 1 wStateP)).filter
        (fun p => p.alive)).length) :=
  ⟨(population_count wEnv wStateP 1 0 rfl (by decide)).1,
   (population_count wEnv wStateP 1 0 rfl (by decide)).2 rfl⟩

/-- Claim C10: in every reachable state the running resource balance is at
the zero floor or above; in a year whose balance is at or below the floor
the Reproduction stage produces no newborns and counts zero births (and,
under the documented rule of no regeneration, the balance never grows from
one year to the next, so births stay impossible until the rule changed). -/
theorem resource_floor (e : Environment) (st : PopState)
    (h : Reachable e st) :
    0 ≤ st.resources ∧
    (st.resources ≤ 0 →
      ∀ (pairs : List (Person × Person)) (r : RngState) (nid : Nat),
        (reproduceGo e pairs r st.resources nid).1 = [] ∧
        (reproduceGo e pairs r st.resources nid).2.2.2.2 = 0) ∧
    (stepYear e st).resources ≤ st.resources := by
  have hg := reachable_good e st h
  refine ⟨hg.2, ?_, ?_⟩
  · intro hz pairs r nid
    obtain ⟨h1, _, _, h4⟩ := reproduceGo_exhausted e pairs r st.resources nid hz
    exact ⟨h1, h4⟩
  · rw [stepYear_resources]
    exact ((reproduceGo_facts e
      (marriedPairs (matingYear e (mortalityYear e st.roster st.rng).1
        (mortalityYear e st.roster st.rng).2.1).1)
      (matingYear e (mortalityYear e st.roster st.rng).1
        (mortalityYear e st.roster st.rng).2.1).2
      st.resources st.nextId).2.2.2 hg.2).2

/-- Witness for C10 at a reachable state whose budget is exhausted. -/
theorem resource_floor_witness :
    0 ≤ wState0.resources ∧
    (reproduceGo wEnv0 [] 5 wState0.resources 0).1 = [] ∧
    (reproduceGo wEnv0 [] 5 wState0.resources 0).2.2.2.2 = 0 ∧
    (stepYear wEnv0 wState0).resources ≤ wState0.resources :=
  ⟨(resource_floor wEnv0 wState0 (Reachable.init 3 0 0 (by decide))).1,
   ((resource_floor wEnv0 wState0 (Reachable.init 3 0 0 (by decide))).2.1
      (by decide) [] 5 0).1,
   ((resource_floor wEnv0 wState0 (Reachable.init 3 0 0 (by decide))).2.1
      (by decide) [] 5 0).2,
   (resource_floor wEnv0 wState0 (Reachable.init 3 0 0 (by decide))).2.2⟩

end Popsim
